import Mathlib

/-!
Verification development for a Firestore REST client library
(query/filter builder, write batch, transaction state machine with a
retry driver, and the native-value / wire-value codec).

Shallow embedding conventions:
  - JavaScript numbers are modelled as `JSNum`: either an exact integer
    (`intVal`), or a double (`dbl`), where a double is an exact rational
    (`JSDouble.rat`) or `JSDouble.nan`.  Doubles pass through the codec
    unchanged, so no floating-point arithmetic is modelled.
  - JavaScript values are the mutual family `JSValue`/`JSList`/`JSFields`
    (arrays and plain objects), with `jundef` for `undefined`.
  - Wire values are the mutual family `FSValue`/`FSList`/`FSFields`.
  - Fallible operations return `Except String` or `Option`; an RPC is a
    function parameter producing `Except String <response>`, so a theorem
    can quantify over both a succeeding and a throwing transport.
-/

/-! ## Character-level utilities (decimal strings, lowercase, substring) -/

/-- The backtick character, written via its code point. -/
def btick : Char := Char.ofNat 96

/-- The backslash character. -/
def bslash : Char := Char.ofNat 92

/-- Decimal digit to character ('0'..'9'). -/
def digitChar : ℕ → Char
  | 0 => '0'
  | 1 => '1'
  | 2 => '2'
  | 3 => '3'
  | 4 => '4'
  | 5 => '5'
  | 6 => '6'
  | 7 => '7'
  | 8 => '8'
  | _ => '9'

/-- Character to decimal digit, `none` for non-digits. -/
def toDigit (c : Char) : Option ℕ :=
  if c = '0' then some 0
  else if c = '1' then some 1
  else if c = '2' then some 2
  else if c = '3' then some 3
  else if c = '4' then some 4
  else if c = '5' then some 5
  else if c = '6' then some 6
  else if c = '7' then some 7
  else if c = '8' then some 8
  else if c = '9' then some 9
  else none

/-- Base-10 digits of `n`, least significant first, with explicit fuel
(the fuel `n` itself always suffices). -/
def natDigitsAux : ℕ → ℕ → List ℕ
  | _, 0 => []
  | 0, _ + 1 => []
  | fuel + 1, n + 1 => ((n + 1) % 10) :: natDigitsAux fuel ((n + 1) / 10)

/-- Value of a digit list, least significant first. -/
def digitsVal : List ℕ → ℕ
  | [] => 0
  | d :: ds => d + 10 * digitsVal ds

/-- Decimal character representation of a natural number (most
significant first), as produced by JavaScript `String(n)`. -/
def natToDecChars (n : ℕ) : List Char :=
  if n = 0 then ['0'] else ((natDigitsAux n n).map digitChar).reverse

/-- Parse a list of characters as decimal digits (most significant first). -/
def parseDigits : List Char → Option (List ℕ)
  | [] => some []
  | c :: cs =>
    match toDigit c, parseDigits cs with
    | some d, some ds => some (d :: ds)
    | _, _ => none

/-- Parse a non-empty decimal character list into a natural number. -/
def decCharsToNat? : List Char → Option ℕ
  | [] => none
  | c :: cs => (parseDigits (c :: cs)).map (fun ds => digitsVal ds.reverse)

/-- Decimal character representation of an integer, with a leading minus
sign for negatives, as produced by JavaScript `String(i)`. -/
def intToDecChars (i : ℤ) : List Char :=
  if i < 0 then '-' :: natToDecChars i.natAbs else natToDecChars i.natAbs

/-- Parse a decimal character list into an integer. -/
def decCharsToInt? : List Char → Option ℤ
  | [] => none
  | c :: cs =>
    if c = '-' then (decCharsToNat? cs).map (fun n => -(n : ℤ))
    else (decCharsToNat? (c :: cs)).map (fun n => (n : ℤ))

/-- String-encoded decimal integer (wire form of Firestore integers). -/
def intToDecStr (i : ℤ) : String := String.mk (intToDecChars i)

/-- Parse a string-encoded decimal integer. -/
def decStrToInt? (s : String) : Option ℤ := decCharsToInt? s.data

/-- ASCII lowercase of a string, as JavaScript `toLowerCase()` on the
ASCII subset used by this library. -/
def lcStr (s : String) : String := String.mk (s.data.map Char.toLower)

/-- Character-list prefix test. -/
def startsWithL : List Char → List Char → Bool
  | [], _ => true
  | _ :: _, [] => false
  | a :: as1, b :: bs => a = b && startsWithL as1 bs

/-- Substring test on character lists: `isSubL needle hay`, as JavaScript
`hay.includes(needle)`. -/
def isSubL (needle : List Char) : List Char → Bool
  | [] => needle.isEmpty
  | c :: t => startsWithL needle (c :: t) || isSubL needle t

/-- Substring test on strings. -/
def containsSubstr (hay needle : String) : Bool := isSubL needle.data hay.data

/-! ## Native values and wire values (ValueCodec data model)

The `Document.wrapValue` / `Document.unwrapValue` codec itself is not part
of the sources (only its callers are), so the codec is modelled from the
specification, section 4.1. -/

/-- A JavaScript double: an exact rational, or NaN.  Finite doubles pass
through the codec unchanged, so they are modelled exactly. -/
inductive JSDouble where
  | rat (q : ℚ)
  | nan
deriving DecidableEq

/-- A JavaScript number: integer-valued, or a double. -/
inductive JSNum where
  | intVal (i : ℤ)
  | dbl (d : JSDouble)
deriving DecidableEq

mutual
/-- A native JavaScript value handled by the codec: null, undefined,
booleans, numbers, strings, dates (at millisecond precision), arrays and
plain objects (ordered field lists). -/
inductive JSValue where
  | jnull
  | jundef
  | jbool (b : Bool)
  | jnum (n : JSNum)
  | jstr (s : String)
  | jdate (ms : ℤ)
  | jarr (xs : JSList)
  | jobj (fs : JSFields)
/-- A list of native values (a JavaScript array). -/
inductive JSList where
  | nil
  | cons (v : JSValue) (t : JSList)
/-- Ordered fields of a plain JavaScript object. -/
inductive JSFields where
  | nil
  | cons (k : String) (v : JSValue) (t : JSFields)
end

mutual
/-- A Firestore wire `Value`: the tagged variant from the spec data model
{null, boolean, integer (decimal string), double, timestamp, string,
reference, geopoint, array, map}. -/
inductive FSValue where
  | nullValue
  | booleanValue (b : Bool)
  | integerValue (s : String)
  | doubleValue (d : JSDouble)
  | timestampValue (ms : ℤ)
  | stringValue (s : String)
  | referenceValue (s : String)
  | geoPointValue (lat lng : JSNum)
  | arrayValue (vs : FSList)
  | mapValue (fs : FSFields)
/-- A list of wire values. -/
inductive FSList where
  | nil
  | cons (v : FSValue) (t : FSList)
/-- Ordered fields of a wire map value. -/
inductive FSFields where
  | nil
  | cons (k : String) (v : FSValue) (t : FSFields)
end

/-- Modelled from the spec: "a string matching the reference-path pattern"
is wrapped as a reference.  The exact regular expression is not given by
the spec; the prefix/infix shape of a document name is used.  Both string
branches unwrap to the same string, so the round-trip property does not
depend on this predicate. -/
def isRefPath (s : String) : Bool :=
  String.isPrefixOf "projects/" s
    && containsSubstr s "/databases/" && containsSubstr s "/documents/"

/-- Detect a {latitude,longitude}-shaped plain object with numeric
coordinates, returning them. -/
def geoShape? : JSFields → Option (JSNum × JSNum)
  | .cons "latitude" (.jnum a) (.cons "longitude" (.jnum b) .nil) => some (a, b)
  | _ => none

mutual
/-- Modelled from the spec (4.1): `wrap(v)`: null/absent to null; boolean
to boolean; integer-valued number to integer (string-encoded); non-integer
number to double; string to string (reference-path strings to reference);
date to timestamp; {latitude,longitude}-shaped object to geopoint; array
to array of wrapped elements; plain object to map of wrapped entries. -/
def wrapValue : JSValue → FSValue
  | .jnull => .nullValue
  | .jundef => .nullValue
  | .jbool b => .booleanValue b
  | .jnum (.intVal i) => .integerValue (intToDecStr i)
  | .jnum (.dbl d) => .doubleValue d
  | .jstr s => if isRefPath s then .referenceValue s else .stringValue s
  | .jdate ms => .timestampValue ms
  | .jarr xs => .arrayValue (wrapList xs)
  | .jobj fs =>
    match geoShape? fs with
    | some p => .geoPointValue p.1 p.2
    | none => .mapValue (wrapFields fs)
/-- Wrap each element of an array. -/
def wrapList : JSList → FSList
  | .nil => .nil
  | .cons v t => .cons (wrapValue v) (wrapList t)
/-- Wrap each field of a plain object. -/
def wrapFields : JSFields → FSFields
  | .nil => .nil
  | .cons k v t => .cons k (wrapValue v) (wrapFields t)
end

mutual
/-- Modelled from the spec (4.1): `unwrap(Value)` is the exact inverse of
`wrap`, parsing integer strings back to numbers and recursing through
map/array; parsing is fallible, hence `Option`. -/
def unwrapValue : FSValue → Option JSValue
  | .nullValue => some .jnull
  | .booleanValue b => some (.jbool b)
  | .integerValue s => (decStrToInt? s).map (fun i => .jnum (.intVal i))
  | .doubleValue d => some (.jnum (.dbl d))
  | .timestampValue ms => some (.jdate ms)
  | .stringValue s => some (.jstr s)
  | .referenceValue s => some (.jstr s)
  | .geoPointValue a b =>
    some (.jobj (.cons "latitude" (.jnum a) (.cons "longitude" (.jnum b) .nil)))
  | .arrayValue vs =>
    match unwrapList vs with
    | some xs => some (.jarr xs)
    | none => none
  | .mapValue fs =>
    match unwrapFields fs with
    | some xs => some (.jobj xs)
    | none => none
/-- Unwrap each element of a wire array. -/
def unwrapList : FSList → Option JSList
  | .nil => some .nil
  | .cons v t =>
    match unwrapValue v, unwrapList t with
    | some a, some r => some (.cons a r)
    | _, _ => none
/-- Unwrap each field of a wire map. -/
def unwrapFields : FSFields → Option JSFields
  | .nil => some .nil
  | .cons k v t =>
    match unwrapValue v, unwrapFields t with
    | some a, some r => some (.cons k a r)
    | _, _ => none
end

mutual
/-- Representable native values, following the claim: null, booleans,
strings, integers up to 2^53, non-integer finite numbers, dates, and
arbitrarily nested arrays and plain-object maps.  `undefined` and NaN are
excluded (`wrap` maps `undefined` to null, and NaN is not deep-equal to
itself in JavaScript). -/
def repValue : JSValue → Bool
  | .jnull => true
  | .jundef => false
  | .jbool _ => true
  | .jnum (.intVal i) => decide (i.natAbs ≤ 2 ^ 53)
  | .jnum (.dbl (.rat q)) => decide (q.den ≠ 1)
  | .jnum (.dbl .nan) => false
  | .jstr _ => true
  | .jdate _ => true
  | .jarr xs => repList xs
  | .jobj fs => repFields fs
/-- Representability of every element of an array. -/
def repList : JSList → Bool
  | .nil => true
  | .cons v t => repValue v && repList t
/-- Representability of every field of a plain object. -/
def repFields : JSFields → Bool
  | .nil => true
  | .cons _ v t => repValue v && repFields t
end

/-- A concrete non-integer rational (3/2), built directly from numerator
and denominator. -/
def qEx : ℚ := ⟨3, 2, by norm_num, by norm_num⟩

/-- A concrete representable value exercising every representable kind:
nested arrays and maps, integers, a non-integer double, strings, a date, a
geopoint-shaped object and a reference-path string. -/
def vEx : JSValue :=
  .jobj (.cons "array value"
    (.jarr (.cons (.jnum (.intVal 42)) (.cons (.jbool false)
      (.cons .jnull (.cons (.jstr "string123") .nil)))))
    (.cons "number value" (.jnum (.dbl (.rat qEx)))
      (.cons "timestamp value" (.jdate 1700000000000)
        (.cons "geopoint value"
          (.jobj (.cons "latitude" (.jnum (.intVal 29))
            (.cons "longitude" (.jnum (.intVal 31)) .nil)))
          (.cons "reference value"
            (.jstr "projects/p/databases/(default)/documents/Test Collection/New Document")
            (.cons "map value"
              (.jobj (.cons "foo" (.jstr "bar") (.cons "neg" (.jnum (.intVal (-7))) .nil)))
              .nil))))))

/-! ## Field-path escaping (Query.fieldRef_, AggregateQuery.fieldRef_) -/

/-- JavaScript `f.replace(X, Y)` with a string pattern replaces only the
first occurrence.  This models `f.replace('\x60', '\\\x60')`: a backslash
is inserted before the first backtick only. -/
def replFirstBt : List Char → List Char
  | [] => []
  | c :: cs => if c = btick then bslash :: btick :: cs else c :: replFirstBt cs

/-- Per-segment escaping of `fieldRef_`: backtick-quote the segment after
escaping its first backtick. -/
def escSegChars (s : List Char) : List Char := btick :: (replFirstBt s ++ [btick])

/-- Per-segment escaping of `fieldRef_`, on strings. -/
def escSegment (s : String) : String := String.mk (escSegChars s.data)

/-- Source `fieldRef_`: split the field path on '.', quote and escape each
segment, and rejoin with '.'. -/
def fieldRef_ (field : String) : String :=
  String.intercalate "." ((field.splitOn ".").map escSegment)

/-- Inverse of `replFirstBt`: remove the single backslash inserted before
the first backtick, leaving everything after it untouched.  Constructed
here (not from the source) to witness that the escaping is injectively
decodable. -/
def unescFirstBt : List Char → List Char
  | [] => []
  | [c] => [c]
  | c :: d :: ds =>
    if c = bslash then
      if d = btick then btick :: ds else c :: unescFirstBt (d :: ds)
    else c :: unescFirstBt (d :: ds)

/-- Decoder for one escaped segment: strip the outer backticks, then undo
the single inserted escape. -/
def decodeSegChars : List Char → Option (List Char)
  | [] => none
  | c :: rest =>
    if c = btick then
      match rest.getLast? with
      | some d => if d = btick then some (unescFirstBt rest.dropLast) else none
      | none => none
    else none

/-- Decoder for one escaped segment, on strings. -/
def decodeSegment (s : String) : Option String :=
  (decodeSegChars s.data).map String.mk

/-- A sample segment containing more than one backtick. -/
def segEx : String := "a`b`c"

/-! ## Filters and the query builder (Query.ts) -/

/-- Wire `Filter` (named `FSFilter` here; `Filter` itself is taken by Mathlib): fieldFilter{field, op, value} | unaryFilter{field, op} |
compositeFilter{op, filters}.  Field references are the escaped
`fieldPath` strings produced by `fieldRef_`. -/
inductive FSFilter where
  | fieldFilter (field : String) (op : String) (value : FSValue)
  | unaryFilter (field : String) (op : String)
  | compositeFilter (op : String) (filters : List FSFilter)

/-- The operator argument of `filter_` (TS `string | number | null`, or
`undefined` when the argument is omitted).  Numeric operators coerce to
decimal keys, which belong to neither operator table, so they follow the
same path as any other unknown key and are not modelled separately. -/
inductive OpArg where
  | str (s : String)
  | jsNull
  | jsUndef

/-- Whether the operator argument is a string (`typeof operator ===
'string'`). -/
def OpArg.isStr : OpArg → Bool
  | .str _ => true
  | _ => false

/-- Source `FieldFilterOps_` enum: operator key to wire operator. -/
def fieldFilterOpsTable : List (String × String) :=
  [("==", "EQUAL"), ("===", "EQUAL"), ("!=", "NOT_EQUAL"), ("!==", "NOT_EQUAL"),
   ("<", "LESS_THAN"), ("<=", "LESS_THAN_OR_EQUAL"), (">", "GREATER_THAN"),
   (">=", "GREATER_THAN_OR_EQUAL"), ("contains", "ARRAY_CONTAINS"),
   ("containsany", "ARRAY_CONTAINS_ANY"), ("in", "IN"), ("notin", "NOT_IN"),
   ("not-in", "NOT_IN")]

/-- Source `UnaryFilterOps_` enum. -/
def unaryFilterOpsTable : List (String × String) :=
  [("nan", "IS_NAN"), ("null", "IS_NULL")]

/-- Key lookup in an operator table (`key in Table` and `Table[key]`). -/
def lookupTable : List (String × String) → String → Option String
  | [], _ => none
  | (a, b) :: t, k => if a = k then some b else lookupTable t k

/-- JavaScript `s.replace('_', '')` with a string pattern: removes only
the first underscore. -/
def removeFirstUnderscore : List Char → List Char
  | [] => []
  | c :: cs => if c = '_' then cs else c :: removeFirstUnderscore cs

/-- Source operator normalization `operator.toLowerCase().replace('_', '')`. -/
def normalizeStrOp (s : String) : String :=
  String.mk (removeFirstUnderscore (s.data.map Char.toLower))

/-- The property key a non-string operator coerces to when used with the
JavaScript `in` operator and for indexing (String(null) = "null",
String(undefined) = "undefined"). -/
def opKey : OpArg → String
  | .str s => s
  | .jsNull => "null"
  | .jsUndef => "undefined"

/-- JavaScript loose `value == null`: true exactly for null and undefined. -/
def isNullish : JSValue → Bool
  | .jnull => true
  | .jundef => true
  | _ => false

/-- Modelled from the spec: `Util_.isNumberNaN(value)` (Util_ is not under
the sources); true exactly for the NaN number. -/
def isNaNValue : JSValue → Bool
  | .jnum (.dbl .nan) => true
  | _ => false

/-- Operator resolution step of source `Query.filter_`: a string operator
is lowercased and stripped of its first underscore; otherwise a
null/undefined value selects 'null', a NaN value selects 'nan', and any
other operator is left as is. -/
def resolveOp (op : OpArg) (value : JSValue) : OpArg :=
  match op with
  | .str s => .str (normalizeStrOp s)
  | _ =>
    if isNullish value then .str "null"
    else if isNaNValue value then .str "nan"
    else op

/-- Source `Query.filter_`: resolve the operator, emit a fieldFilter when
the key is in the binary table, a unaryFilter when it is in the unary
table, and an invalid-operator error otherwise (before any RPC — the
builder performs no I/O). -/
def filter_ (field : String) (op : OpArg) (value : JSValue) : Except String FSFilter :=
  let opR := resolveOp op value
  match lookupTable fieldFilterOpsTable (opKey opR) with
  | some wireOp => .ok (.fieldFilter (fieldRef_ field) wireOp (wrapValue value))
  | none =>
    match lookupTable unaryFilterOpsTable (opKey opR) with
    | some wireOp => .ok (.unaryFilter (fieldRef_ field) wireOp)
    | none => .error ("Invalid Operator given: " ++ opKey opR)

/-- The query builder state relevant to Where/WhereOr: the filter root
(`this.where`).  The other builder fields (select, from, orderBy, cursors,
offset, limit) are untouched by these methods and omitted. -/
structure Query where
  whereFilter : Option FSFilter

/-- FSFilter-root update of source `Query.Where`: with no root the new
filter becomes the root; with a non-composite root, the root is wrapped in
an AND composite first; with any composite root (the source checks only
`!this.where.compositeFilter`, not its operator), the new filter is pushed
into the existing composite in place. -/
def whereAdd (cur : Option FSFilter) (f : FSFilter) : Option FSFilter :=
  match cur with
  | none => some f
  | some w =>
    match w with
    | .compositeFilter op fs => some (.compositeFilter op (fs ++ [f]))
    | _ => some (.compositeFilter "AND" [w, f])

/-- Source `Query.Where` (on success: the state after the call; a raised
invalid-operator error is returned as `.error`.  In the source the
AND-wrapping of the root happens before `filter_` is evaluated, so a
throwing `filter_` leaves a wrapped root behind; that transient state is
not modelled). -/
def Query.Where (q : Query) (field : String) (op : OpArg) (value : JSValue) :
    Except String Query :=
  match filter_ field op value with
  | .ok f => .ok ⟨whereAdd q.whereFilter f⟩
  | .error e => .error e

/-- Source `Query.WhereOr`: requires at least 2 filters; builds an OR
composite; with no root it becomes the root; with an AND-composite root it
is pushed into that composite; with any other root, the root and the OR
composite are combined under a new AND composite. -/
def Query.WhereOr (q : Query) (filters : List FSFilter) : Except String Query :=
  if filters.length < 2 then .error "OR filter requires at least 2 filters"
  else
    let orF := FSFilter.compositeFilter "OR" filters
    match q.whereFilter with
    | none => .ok ⟨some orF⟩
    | some w =>
      match w with
      | .compositeFilter op fs =>
        if op = "AND" then .ok ⟨some (.compositeFilter op (fs ++ [orF]))⟩
        else .ok ⟨some (.compositeFilter "AND" [.compositeFilter op fs, orF])⟩
      | _ => .ok ⟨some (.compositeFilter "AND" [w, orF])⟩

/-- Source static `Query.createFilter`: produce a standalone filter via a
temporary query's `filter_`. -/
def Query.createFilter (field : String) (op : OpArg) (value : JSValue) :
    Except String FSFilter :=
  filter_ field op value

/-- Whether a filter is an AND composite (`where.compositeFilter &&
where.compositeFilter.op === 'AND'`). -/
def isAndComposite : FSFilter → Bool
  | .compositeFilter "AND" _ => true
  | _ => false

/-- Whether a filter is a composite filter of any operator. -/
def isCompositeF : FSFilter → Bool
  | .compositeFilter _ _ => true
  | _ => false

/-- Sample field filter: Where('a', '==', 1). -/
def ffAeq1 : FSFilter := .fieldFilter (fieldRef_ "a") "EQUAL" (.integerValue "1")

/-- Sample field filter: Where('b', '>', 2). -/
def ffBgt2 : FSFilter := .fieldFilter (fieldRef_ "b") "GREATER_THAN" (.integerValue "2")

/-- Sample standalone filter: createFilter('number value', '==', 100). -/
def sampleF1 : FSFilter := .fieldFilter (fieldRef_ "number value") "EQUAL" (.integerValue "100")

/-- Sample standalone filter: createFilter('number value', '==', 42). -/
def sampleF2 : FSFilter := .fieldFilter (fieldRef_ "number value") "EQUAL" (.integerValue "42")

/-! ## Writes, field transforms, and the WriteBatch (WriteBatch.ts) -/

/-- Wire `FieldTransform`: fieldPath plus one of
setToServerValue/increment/appendMissingElements/removeAllFromArray. -/
inductive FieldTransform where
  | setToServerValue (fieldPath : String) (v : String)
  | increment (fieldPath : String) (value : FSValue)
  | appendMissingElements (fieldPath : String) (values : FSList)
  | removeAllFromArray (fieldPath : String) (values : FSList)

/-- Wire `Write`: update{name, fields, updateMask?, currentDocument?} |
delete{name} | transform{document, fieldTransforms}. -/
inductive Write where
  | update (name : String) (fields : FSFields) (updateMask : Option (List String))
      (currentDocument : Option Bool)
  | deleteW (name : String)
  | transformW (document : String) (fieldTransforms : List FieldTransform)

/-- Global backtick escaping used by masks and transform field paths:
JavaScript `field.replace(/PAT/g, ...)` with a regex replaces every
occurrence, unlike the string-pattern replace of `fieldRef_`. -/
def replAllBt : List Char → List Char
  | [] => []
  | c :: cs => if c = btick then bslash :: btick :: replAllBt cs else c :: replAllBt cs

/-- Backtick-quoted, fully escaped field key used by `transform` and the
update-mask paths. -/
def escapeFieldKey (f : String) : String :=
  String.mk (btick :: (replAllBt f.data ++ [btick]))

/-- JavaScript truthiness of a native value: false for null, undefined,
false, 0, NaN and the empty string; true for everything else (including
empty arrays and objects). -/
def jsTruthy : JSValue → Bool
  | .jnull => false
  | .jundef => false
  | .jbool b => b
  | .jnum (.intVal i) => decide (i ≠ 0)
  | .jnum (.dbl (.rat q)) => decide (q ≠ 0)
  | .jnum (.dbl .nan) => false
  | .jstr s => decide (s ≠ "")
  | .jdate _ => true
  | .jarr _ => true
  | .jobj _ => true

/-- Whether a native value is an array (`Array.isArray`). -/
def JSValue.isArr : JSValue → Bool
  | .jarr _ => true
  | _ => false

/-- One per-field entry of the `transforms` record passed to
`WriteBatch.transform`: a string, an object carrying the relevant
properties (a property that is absent or `undefined` is `none`), or any
other primitive. -/
inductive TEntry where
  | strE (s : String)
  | objE (increment arrayUnion arrayRemove : Option JSValue)
  | otherE

/-- Array-or-single payload encoding of transform:
`Array.isArray(x) ? x.map(wrapValue) : [wrapValue(x)]`. -/
def wrapValuesArr (v : JSValue) : FSList :=
  match v with
  | .jarr xs => wrapList xs
  | _ => .cons (wrapValue v) .nil

/-- The `else if (transform.arrayUnion)` branch: a truthy payload becomes
an appendMissingElements transform; a falsy or absent payload yields
nothing. -/
def arrayUnionBranch (field : String) (au : Option JSValue) : Option FieldTransform :=
  match au with
  | some v =>
    if jsTruthy v then some (.appendMissingElements (escapeFieldKey field) (wrapValuesArr v))
    else none
  | none => none

/-- The `else if (transform.arrayRemove)` branch. -/
def arrayRemoveBranch (field : String) (ar : Option JSValue) : Option FieldTransform :=
  match ar with
  | some v =>
    if jsTruthy v then some (.removeAllFromArray (escapeFieldKey field) (wrapValuesArr v))
    else none
  | none => none

/-- Per-field entry handling of source `WriteBatch.transform`: the string
'serverTimestamp' maps to setToServerValue REQUEST_TIME; an object is
checked for `increment !== undefined`, then truthy `arrayUnion`, then
truthy `arrayRemove`; every other shape produces no entry (and no error). -/
def transformEntry (field : String) (t : TEntry) : Option FieldTransform :=
  match t with
  | .strE s =>
    if s = "serverTimestamp" then
      some (.setToServerValue (escapeFieldKey field) "REQUEST_TIME")
    else none
  | .objE inc au ar =>
    match inc with
    | some v => some (.increment (escapeFieldKey field) (wrapValue v))
    | none =>
      match arrayUnionBranch field au with
      | some ft => some ft
      | none => arrayRemoveBranch field ar
  | .otherE => none

/-- The write batch state: its pending-write list. -/
structure WriteBatch where
  writes : List Write

/-- Source `WriteBatch.size`: the pending-write count. -/
def WriteBatch.size (st : WriteBatch) : ℕ := st.writes.length

/-- Source `WriteBatch.transform`: build the field transforms of all
entries, and stage one transform write when at least one was produced
(the full document path built by `Util_.cleanDocumentPath`/basePath is
transport plumbing and is passed through). -/
def WriteBatch.transform (st : WriteBatch) (path : String)
    (entries : List (String × TEntry)) : Except String WriteBatch :=
  let fts := entries.filterMap (fun p => transformEntry p.1 p.2)
  if 0 < fts.length then .ok ⟨st.writes ++ [.transformW path fts]⟩ else .ok st

/-- One per-operation status entry of a batchWrite response. -/
structure WStatus where
  code : Option ℤ
  message : Option String

/-- One write result entry of a commit/batchWrite response. -/
structure WriteResult where
  updateTime : Option String

/-- A batchWrite response: writeResults plus a per-operation status list. -/
structure BatchWriteResponse where
  writeResults : Option (List WriteResult)
  status : Option (List WStatus)

/-- JavaScript `status.code && status.code !== 0`: an absent or zero code
is not a failure. -/
def statusFailing (s : WStatus) : Bool :=
  match s.code with
  | some c => decide (c ≠ 0)
  | none => false

/-- `status.message || 'Unknown error'`. -/
def statusMsg (s : WStatus) : String := s.message.getD "Unknown error"

/-- The first (lowest-index) failing entry of a status list, with its
index and message, as found by the response-checking loop. -/
def firstFailing : List WStatus → Option (ℕ × String)
  | [] => none
  | s :: rest =>
    if statusFailing s then some (0, statusMsg s)
    else (firstFailing rest).map (fun p => (p.1 + 1, p.2))

/-- Source `WriteBatch.commit`: throws on an empty batch before any RPC;
otherwise posts all pending writes in one RPC (`post` is the transport),
clears the pending list as soon as the response arrives, then raises an
error naming the first failing operation if any status code is non-zero;
a throwing transport propagates without clearing the list. -/
def WriteBatch.commit (st : WriteBatch)
    (post : List Write → Except String BatchWriteResponse) :
    WriteBatch × Except String (List WriteResult) :=
  if st.writes.length = 0 then (st, .error "Cannot commit empty batch")
  else
    match post st.writes with
    | .error e => (st, .error e)
    | .ok resp =>
      match resp.status with
      | some sts =>
        match firstFailing sts with
        | some p =>
          (⟨[]⟩, .error ("Batch write operation " ++ toString p.1 ++ " failed: " ++ p.2))
        | none => (⟨[]⟩, .ok (resp.writeResults.getD []))
      | none => (⟨[]⟩, .ok (resp.writeResults.getD []))

/-- A sample pending write. -/
def wEx : Write := .deleteW "Test Collection/Doc1"

/-- A sample non-failing status entry. -/
def stOkEx : WStatus := ⟨some 0, none⟩

/-- A sample failing status entry. -/
def stFailEx : WStatus := ⟨some 5, some "boom"⟩

/-- A sample batchWrite response whose second operation failed. -/
def respFail : BatchWriteResponse := ⟨some [⟨some "t1"⟩], some [stOkEx, stFailEx]⟩

/-! ## Transaction state machine (Transaction.ts) -/

/-- The transaction state: `isActive`, the staged write list, and the
opaque transaction id (`undefined` is `none`).  The transport fields
(base URL, auth token) are plumbing and omitted. -/
structure Transaction where
  isActive : Bool
  writes : List Write
  transactionId : Option String

/-- A beginTransaction response. -/
structure BeginResponse where
  transaction : Option String

/-- A commit response. -/
structure CommitResponse where
  writeResults : Option (List WriteResult)

/-- Source `Transaction.begin`: throws when already Active; otherwise
posts a beginTransaction RPC, stores the returned id, and becomes Active.
A throwing RPC propagates with the state unchanged. -/
def Transaction.begin (st : Transaction) (post : Except String BeginResponse) :
    Transaction × Except String Unit :=
  if st.isActive then (st, .error "Transaction is already active")
  else
    match post with
    | .error e => (st, .error e)
    | .ok r => ({ st with isActive := true, transactionId := r.transaction }, .ok ())

/-- Source `Transaction.commit`: throws when not Active; otherwise posts
the staged writes plus the transaction id in one RPC (`post`), and only
after the response arrives resets the state (Inactive, no writes, no id).
A throwing RPC propagates before the reset lines run, leaving the
transaction Active with its writes and id. -/
def Transaction.commit (st : Transaction)
    (post : List Write → Option String → Except String CommitResponse) :
    Transaction × Except String (List WriteResult) :=
  if st.isActive then
    match post st.writes st.transactionId with
    | .error e => (st, .error e)
    | .ok resp => (⟨false, [], none⟩, .ok (resp.writeResults.getD []))
  else (st, .error "Transaction is not active")

/-- Source `Transaction.rollback`: throws when not Active; otherwise posts
an explicit rollback RPC with the transaction id and resets the state only
after the response arrives, exactly like `commit`. -/
def Transaction.rollback (st : Transaction)
    (post : Option String → Except String Unit) :
    Transaction × Except String Unit :=
  if st.isActive then
    match post st.transactionId with
    | .error e => (st, .error e)
    | .ok _ => (⟨false, [], none⟩, .ok ())
  else (st, .error "Transaction is not active")

/-! ## The retry driver (Firestore.runTransaction) -/

/-- Observable result of a `runTransaction` run: the outcome, how many
attempts were made (each attempt = fresh Transaction + begin + fn +
commit), and the backoff sleeps performed, in order. -/
structure RunResult (α : Type) where
  outcome : Except String α
  attemptsMade : ℕ
  sleeps : List ℕ

/-- The backoff delay before retrying attempt `attempt + 1`:
`Math.min(1000 * Math.pow(2, attempt), 10000)`. -/
def backoffDelay (attempt : ℕ) : ℕ := min (1000 * 2 ^ attempt) 10000

/-- Source `Firestore.isRetryableError`: case-insensitive substring match
of the error message against 'aborted', 'conflict', 'contention',
'too much contention' (redundant with 'contention') and
'deadline exceeded'. -/
def isRetryableError (msg : String) : Bool :=
  let m := lcStr msg
  containsSubstr m "aborted" || containsSubstr m "conflict" || containsSubstr m "contention"
    || containsSubstr m "too much contention" || containsSubstr m "deadline exceeded"

/-- Source `Firestore.runTransaction` loop, from iteration `attempt` with
`rem` loop iterations left (the driver starts at attempt 0 with
maxRetries + 1 iterations).  One attempt is abstracted by `env attempt`:
the combined outcome of begin + updateFunction + commit on the freshly
constructed Transaction of that attempt (no state is carried across
attempts, so an attempt is a function of its index alone; after a failure
a rollback is attempted with its own errors swallowed, so it does not
affect control flow).  The `rem = 0` base case is the unreachable
post-loop throw. -/
def runTransactionAux {α : Type} (env : ℕ → Except String α) (maxRetries attempt : ℕ) :
    ℕ → RunResult α
  | 0 => ⟨.error "Transaction failed after maximum retries", 0, []⟩
  | rem + 1 =>
    match env attempt with
    | .ok a => ⟨.ok a, 1, []⟩
    | .error msg =>
      if isRetryableError msg = true ∧ attempt < maxRetries then
        let r := runTransactionAux env maxRetries (attempt + 1) rem
        ⟨r.outcome, r.attemptsMade + 1, backoffDelay attempt :: r.sleeps⟩
      else ⟨.error msg, 1, []⟩

/-- Source `Firestore.runTransaction(fn, options, maxRetries)`. -/
def Firestore.runTransaction {α : Type} (env : ℕ → Except String α) (maxRetries : ℕ) :
    RunResult α :=
  runTransactionAux env maxRetries 0 (maxRetries + 1)

/-- The spec's test scenario: attempts 0 and 1 fail with an ABORTED
message, attempt 2 succeeds with 7. -/
def retryEnvEx : ℕ → Except String ℕ :=
  fun i => if i < 2 then .error "ABORTED: too much contention" else .ok 7

/-! ## Decimal codec lemmas -/

theorem digitsVal_natDigitsAux : ∀ fuel n : ℕ, n ≤ fuel →
    digitsVal (natDigitsAux fuel n) = n := by
  intro fuel
  induction fuel with
  | zero =>
    intro n h
    interval_cases n
    rfl
  | succ f ih =>
    intro n h
    match n with
    | 0 => rfl
    | m + 1 =>
      show digitsVal (((m + 1) % 10) :: natDigitsAux f ((m + 1) / 10)) = m + 1
      have hd : (m + 1) / 10 ≤ f := by omega
      simp only [digitsVal, ih ((m + 1) / 10) hd]
      omega

theorem natDigitsAux_lt_ten : ∀ fuel n d : ℕ, d ∈ natDigitsAux fuel n → d < 10 := by
  intro fuel
  induction fuel with
  | zero =>
    intro n d hd
    cases n <;> simp [natDigitsAux] at hd
  | succ f ih =>
    intro n d hd
    match n with
    | 0 => simp [natDigitsAux] at hd
    | m + 1 =>
      simp only [natDigitsAux, List.mem_cons] at hd
      rcases hd with h | h
      · omega
      · exact ih _ _ h

theorem toDigit_digitChar (d : ℕ) (h : d < 10) : toDigit (digitChar d) = some d := by
  interval_cases d <;> rfl

theorem digitChar_ne_minus (d : ℕ) (h : d < 10) : digitChar d ≠ '-' := by
  interval_cases d <;> decide

theorem parseDigits_map_digitChar : ∀ ds : List ℕ, (∀ d ∈ ds, d < 10) →
    parseDigits (ds.map digitChar) = some ds := by
  intro ds
  induction ds with
  | nil => intro _; rfl
  | cons d t ih =>
    intro h
    have hd : d < 10 := h d (List.mem_cons_self d t)
    have ht : parseDigits (t.map digitChar) = some t :=
      ih (fun x hx => h x (List.mem_cons_of_mem d hx))
    simp only [List.map_cons, parseDigits, toDigit_digitChar d hd, ht]

theorem decCharsToNat?_natToDecChars (n : ℕ) :
    decCharsToNat? (natToDecChars n) = some n := by
  match n with
  | 0 => rfl
  | m + 1 =>
    have hne : natToDecChars (m + 1) = ((natDigitsAux (m + 1) (m + 1)).map digitChar).reverse := by
      simp [natToDecChars]
    have hrev : ((natDigitsAux (m + 1) (m + 1)).map digitChar).reverse
        = ((natDigitsAux (m + 1) (m + 1)).reverse).map digitChar := by
      simp
    have hparse : parseDigits (((natDigitsAux (m + 1) (m + 1)).reverse).map digitChar)
        = some ((natDigitsAux (m + 1) (m + 1)).reverse) := by
      apply parseDigits_map_digitChar
      intro d hd
      exact natDigitsAux_lt_ten _ _ d (List.mem_reverse.mp hd)
    have hcons : natDigitsAux (m + 1) (m + 1)
        = ((m + 1) % 10) :: natDigitsAux m ((m + 1) / 10) := rfl
    rw [hne, hrev]
    cases hc : ((natDigitsAux (m + 1) (m + 1)).reverse).map digitChar with
    | nil =>
      exfalso
      rw [hcons] at hc
      simp at hc
    | cons c cs =>
      simp only [decCharsToNat?]
      rw [← hc, hparse]
      simp
      exact digitsVal_natDigitsAux (m + 1) (m + 1) (Nat.le_refl _)

theorem natToDecChars_ne_nil (n : ℕ) : natToDecChars n ≠ [] := by
  match n with
  | 0 => decide
  | m + 1 =>
    have hcons : natDigitsAux (m + 1) (m + 1)
        = ((m + 1) % 10) :: natDigitsAux m ((m + 1) / 10) := rfl
    simp [natToDecChars, hcons]

theorem natToDecChars_head_ne_minus (n : ℕ) (c : Char) (cs : List Char)
    (h : natToDecChars n = c :: cs) : c ≠ '-' := by
  match n with
  | 0 =>
    have h0 : natToDecChars 0 = ['0'] := rfl
    rw [h0] at h
    injection h with h1 h2
    rw [← h1]
    decide
  | m + 1 =>
    have hmem : c ∈ natToDecChars (m + 1) := by rw [h]; exact List.mem_cons_self c cs
    have : c ∈ ((natDigitsAux (m + 1) (m + 1)).map digitChar).reverse := by
      simpa [natToDecChars] using hmem
    rw [List.mem_reverse, List.mem_map] at this
    obtain ⟨d, hd, hdc⟩ := this
    have hlt : d < 10 := natDigitsAux_lt_ten _ _ d hd
    rw [← hdc]
    exact digitChar_ne_minus d hlt

theorem decCharsToInt?_intToDecChars (i : ℤ) :
    decCharsToInt? (intToDecChars i) = some i := by
  by_cases hneg : i < 0
  · have h1 : intToDecChars i = '-' :: natToDecChars i.natAbs := by
      simp [intToDecChars, hneg]
    rw [h1]
    simp only [decCharsToInt?, if_pos]
    rw [decCharsToNat?_natToDecChars]
    have h2 : (i.natAbs : ℤ) = -i := by omega
    simp [h2]
  · have h1 : intToDecChars i = natToDecChars i.natAbs := by
      simp [intToDecChars, hneg]
    rw [h1]
    cases hc : natToDecChars i.natAbs with
    | nil => exact absurd hc (natToDecChars_ne_nil _)
    | cons c cs =>
      have hcm : c ≠ '-' := natToDecChars_head_ne_minus _ c cs hc
      simp only [decCharsToInt?, if_neg hcm]
      rw [← hc, decCharsToNat?_natToDecChars]
      have h2 : (i.natAbs : ℤ) = i := by omega
      simp [h2]

theorem decStrToInt?_intToDecStr (i : ℤ) : decStrToInt? (intToDecStr i) = some i :=
  decCharsToInt?_intToDecChars i

/-! ## Value codec round-trip (claim C1) -/

theorem geoShape?_eq_some (fs : JSFields) (a b : JSNum) (h : geoShape? fs = some (a, b)) :
    fs = .cons "latitude" (.jnum a) (.cons "longitude" (.jnum b) .nil) := by
  rw [geoShape?.eq_def] at h
  split at h
  · injection h with h1
    injection h1 with ha hb
    subst ha
    subst hb
    rfl
  · exact absurd h (by simp)

mutual
theorem roundtripValue : ∀ v : JSValue, repValue v = true →
    unwrapValue (wrapValue v) = some v
  | .jnull, _ => rfl
  | .jundef, h => by simp [repValue] at h
  | .jbool _, _ => rfl
  | .jnum (.intVal i), _ => by
    simp only [wrapValue, unwrapValue]
    rw [decStrToInt?_intToDecStr]
    rfl
  | .jnum (.dbl (.rat _)), _ => rfl
  | .jnum (.dbl .nan), h => by simp [repValue] at h
  | .jstr s, _ => by
    by_cases hr : isRefPath s
    · simp [wrapValue, hr, unwrapValue]
    · simp [wrapValue, hr, unwrapValue]
  | .jdate _, _ => rfl
  | .jarr xs, h => by
    have h2 : repList xs = true := by simpa [repValue] using h
    simp only [wrapValue, unwrapValue, roundtripList xs h2]
  | .jobj fs, h => by
    have h2 : repFields fs = true := by simpa [repValue] using h
    simp only [wrapValue]
    cases hg : geoShape? fs with
    | some p =>
      have hfs := geoShape?_eq_some fs p.1 p.2 (by rw [hg])
      rw [hfs]
      rfl
    | none =>
      simp only [unwrapValue, roundtripFields fs h2]
theorem roundtripList : ∀ xs : JSList, repList xs = true →
    unwrapList (wrapList xs) = some xs
  | .nil, _ => rfl
  | .cons v t, h => by
    have hv : repValue v = true := by
      have := h
      simp [repList, Bool.and_eq_true] at this
      exact this.1
    have ht : repList t = true := by
      have := h
      simp [repList, Bool.and_eq_true] at this
      exact this.2
    simp only [wrapList, unwrapList, roundtripValue v hv, roundtripList t ht]
theorem roundtripFields : ∀ fs : JSFields, repFields fs = true →
    unwrapFields (wrapFields fs) = some fs
  | .nil, _ => rfl
  | .cons k v t, h => by
    have hv : repValue v = true := by
      have := h
      simp [repFields, Bool.and_eq_true] at this
      exact this.1
    have ht : repFields t = true := by
      have := h
      simp [repFields, Bool.and_eq_true] at this
      exact this.2
    simp only [wrapFields, unwrapFields, roundtripValue v hv, roundtripFields t ht]
end

/-- Claim C1: for every representable native value v (null, booleans,
strings, integers up to 2^53, non-integer numbers, dates to millisecond
precision, geopoint-shaped objects, reference-path strings, and
arbitrarily nested arrays and plain-object maps), unwrapping the wrapped
wire Value returns a value deep-equal to v: unwrap(wrap(v)) = v. -/
theorem wrap_unwrap_roundtrip (v : JSValue) (h : repValue v = true) :
    unwrapValue (wrapValue v) = some v :=
  roundtripValue v h

/-- Witness for C1 at the concrete nested value `vEx`. -/
theorem wrap_unwrap_roundtrip_witness :
    repValue vEx = true ∧ unwrapValue (wrapValue vEx) = some vEx :=
  ⟨by rfl, wrap_unwrap_roundtrip vEx (by rfl)⟩

/-! ## Segment escaping round-trip (claim C7) -/

theorem unescFirstBt_no_btick : ∀ l : List Char, btick ∉ l → unescFirstBt l = l := by
  intro l
  induction l with
  | nil => intro _; rfl
  | cons c cs ih =>
    intro h
    have hcs : btick ∉ cs := fun hh => h (List.mem_cons_of_mem c hh)
    match cs, hcs, ih with
    | [], _, _ => rfl
    | d :: ds, hcs2, ih =>
      have hd : d ≠ btick := fun hh => hcs2 (hh ▸ List.mem_cons_self d ds)
      simp only [unescFirstBt, if_neg hd]
      rw [ih hcs2]
      by_cases hb : c = bslash
      · rw [if_pos hb]
      · rw [if_neg hb]

theorem unescFirstBt_insert : ∀ p r : List Char, btick ∉ p →
    unescFirstBt (p ++ bslash :: btick :: r) = p ++ btick :: r := by
  intro p
  induction p with
  | nil =>
    intro r _
    show unescFirstBt (bslash :: btick :: r) = btick :: r
    simp [unescFirstBt]
  | cons c p' ih =>
    intro r h
    have hp' : btick ∉ p' := fun hh => h (List.mem_cons_of_mem c hh)
    match p', hp', ih with
    | [], _, _ =>
      show unescFirstBt (c :: bslash :: btick :: r) = c :: btick :: r
      by_cases hb : c = bslash
      · subst hb
        simp [unescFirstBt]
        intro hx
        exact absurd hx (by decide)
      · simp [unescFirstBt, hb]
    | d :: t, hp2, ih =>
      have hd : d ≠ btick := fun hh => hp2 (hh ▸ List.mem_cons_self d t)
      show unescFirstBt (c :: d :: (t ++ bslash :: btick :: r)) = c :: d :: (t ++ btick :: r)
      have hih : unescFirstBt (d :: (t ++ bslash :: btick :: r)) = d :: (t ++ btick :: r) := by
        have := ih r hp2
        simpa using this
      simp only [unescFirstBt, if_neg hd]
      rw [hih]
      by_cases hb : c = bslash
      · rw [if_pos hb]
      · rw [if_neg hb]

theorem replFirstBt_no_btick : ∀ l : List Char, btick ∉ l → replFirstBt l = l := by
  intro l
  induction l with
  | nil => intro _; rfl
  | cons c cs ih =>
    intro h
    have hc : c ≠ btick := fun hh => h (hh ▸ List.mem_cons_self c cs)
    have hcs : btick ∉ cs := fun hh => h (List.mem_cons_of_mem c hh)
    simp only [replFirstBt, if_neg hc]
    rw [ih hcs]

theorem replFirstBt_split : ∀ l : List Char, btick ∈ l →
    ∃ p r, l = p ++ btick :: r ∧ btick ∉ p ∧ replFirstBt l = p ++ bslash :: btick :: r := by
  intro l
  induction l with
  | nil => intro h; exact absurd h (List.not_mem_nil _)
  | cons c cs ih =>
    intro h
    by_cases hc : c = btick
    · subst hc
      exact ⟨[], cs, rfl, List.not_mem_nil _, by simp [replFirstBt]⟩
    · have hmem : btick ∈ cs := by
        rcases List.mem_cons.mp h with h1 | h1
        · exact absurd h1.symm hc
        · exact h1
      obtain ⟨p, r, hl, hp, hrepl⟩ := ih hmem
      refine ⟨c :: p, r, by rw [hl]; rfl, ?_, ?_⟩
      · intro hh
        rcases List.mem_cons.mp hh with h1 | h1
        · exact hc h1.symm
        · exact hp h1
      · simp only [replFirstBt, if_neg hc]
        rw [hrepl]
        rfl

theorem unescFirstBt_replFirstBt (l : List Char) : unescFirstBt (replFirstBt l) = l := by
  by_cases h : btick ∈ l
  · obtain ⟨p, r, hl, hp, hrepl⟩ := replFirstBt_split l h
    rw [hrepl, unescFirstBt_insert p r hp, hl]
  · rw [replFirstBt_no_btick l h, unescFirstBt_no_btick l h]

theorem decodeSegChars_escSegChars (l : List Char) :
    decodeSegChars (escSegChars l) = some l := by
  show decodeSegChars (btick :: (replFirstBt l ++ [btick])) = some l
  simp [decodeSegChars, List.getLast?_concat, List.dropLast_concat, unescFirstBt_replFirstBt]

/-- Claim C7: the per-segment escaping of fieldRef (split on '.', quote
and escape each segment with backticks, rejoin) round-trips: it is
injectively decodable back to the original segment, for every segment,
including segments containing one or more backticks. -/
theorem fieldRef_escape_roundtrip :
    (∀ s : String, decodeSegment (escSegment s) = some s)
    ∧ ∀ s t : String, escSegment s = escSegment t → s = t := by
  constructor
  · intro s
    show (decodeSegChars (String.mk (escSegChars s.data)).data).map String.mk = some s
    rw [show (String.mk (escSegChars s.data)).data = escSegChars s.data from rfl]
    rw [decodeSegChars_escSegChars]
    rfl
  · intro s t h
    have h1 : decodeSegment (escSegment s) = decodeSegment (escSegment t) := by rw [h]
    have h2 : (some s : Option String) = some t := by
      have hs : decodeSegment (escSegment s) = some s := by
        show (decodeSegChars (String.mk (escSegChars s.data)).data).map String.mk = some s
        rw [show (String.mk (escSegChars s.data)).data = escSegChars s.data from rfl]
        rw [decodeSegChars_escSegChars]
        rfl
      have ht : decodeSegment (escSegment t) = some t := by
        show (decodeSegChars (String.mk (escSegChars t.data)).data).map String.mk = some t
        rw [show (String.mk (escSegChars t.data)).data = escSegChars t.data from rfl]
        rw [decodeSegChars_escSegChars]
        rfl
      rw [← hs, ← ht, h1]
    injection h2

/-- Witness for C7 at a segment with two backticks. -/
theorem fieldRef_escape_roundtrip_witness :
    decodeSegment (escSegment segEx) = some segEx ∧ segEx = segEx :=
  ⟨fieldRef_escape_roundtrip.1 segEx, fieldRef_escape_roundtrip.2 segEx segEx rfl⟩

/-! ## Filter construction and Where/WhereOr (claims C4, C5, C6) -/

/-- Claim C6: with an omitted (non-string) operator, a null/undefined
value yields a unary IS_NULL filter carrying no value payload; a NaN value
yields a unary IS_NAN filter; and any combination whose resolved operator
key belongs to neither the closed binary-operator table nor the unary
table yields the invalid-operator error (raised before any RPC: the
builder performs no I/O). -/
theorem filter_unary_invalid_spec :
    (∀ (field : String) (op : OpArg) (v : JSValue), op.isStr = false →
      isNullish v = true →
      filter_ field op v = .ok (.unaryFilter (fieldRef_ field) "IS_NULL"))
    ∧ (∀ (field : String) (op : OpArg), op.isStr = false →
      filter_ field op (.jnum (.dbl .nan)) = .ok (.unaryFilter (fieldRef_ field) "IS_NAN"))
    ∧ (∀ (field : String) (op : OpArg) (v : JSValue),
      lookupTable fieldFilterOpsTable (opKey (resolveOp op v)) = none →
      lookupTable unaryFilterOpsTable (opKey (resolveOp op v)) = none →
      filter_ field op v = .error ("Invalid Operator given: " ++ opKey (resolveOp op v))) := by
  refine ⟨?_, ?_, ?_⟩
  · intro field op v hop hv
    cases op with
    | str s => simp [OpArg.isStr] at hop
    | jsNull => cases v <;> first | rfl | simp [isNullish] at hv
    | jsUndef => cases v <;> first | rfl | simp [isNullish] at hv
  · intro field op hop
    cases op with
    | str s => simp [OpArg.isStr] at hop
    | jsNull => rfl
    | jsUndef => rfl
  · intro field op v h1 h2
    simp only [filter_, h1, h2]

/-- Witness for C6: Where('x', null) yields IS_NULL, NaN yields IS_NAN,
and an undefined operator with a plain value raises InvalidOperator. -/
theorem filter_unary_invalid_spec_witness :
    filter_ "x" OpArg.jsNull .jnull = .ok (.unaryFilter (fieldRef_ "x") "IS_NULL")
    ∧ filter_ "x" OpArg.jsUndef (.jnum (.dbl .nan))
        = .ok (.unaryFilter (fieldRef_ "x") "IS_NAN")
    ∧ filter_ "x" OpArg.jsUndef (.jnum (.intVal 5))
        = .error ("Invalid Operator given: "
            ++ opKey (resolveOp OpArg.jsUndef (.jnum (.intVal 5)))) :=
  ⟨filter_unary_invalid_spec.1 "x" OpArg.jsNull .jnull (by rfl) (by rfl),
   filter_unary_invalid_spec.2.1 "x" OpArg.jsUndef (by rfl),
   filter_unary_invalid_spec.2.2 "x" OpArg.jsUndef (.jnum (.intVal 5)) (by rfl) (by rfl)⟩

/-- Claim C4 evaluation: the first Where call sets the root and
Where('a','==',1).Where('b','>',2) yields AND[EQUAL a 1, GREATER_THAN b 2]
as claimed; but when the root is an OR composite (from a preceding
WhereOr), a subsequent Where appends the new filter into the OR composite
in place instead of wrapping the non-AND root in an AND composite, because
the source checks only `!this.where.compositeFilter`, not its operator. -/
theorem where_after_or_root_eval :
    (match Query.Where ⟨none⟩ "a" (.str "==") (.jnum (.intVal 1)) with
      | .ok q => Query.Where q "b" (.str ">") (.jnum (.intVal 2))
      | .error e => .error e)
      = .ok ⟨some (.compositeFilter "AND" [ffAeq1, ffBgt2])⟩
    ∧ (match Query.WhereOr ⟨none⟩ [sampleF1, sampleF2] with
      | .ok q => Query.Where q "b" (.str ">") (.jnum (.intVal 2))
      | .error e => .error e)
      = .ok ⟨some (.compositeFilter "OR" [sampleF1, sampleF2, ffBgt2])⟩
    ∧ (Query.mk (some (.compositeFilter "OR" [sampleF1, sampleF2, ffBgt2]))
        ≠ ⟨some (.compositeFilter "AND"
            [.compositeFilter "OR" [sampleF1, sampleF2], ffBgt2])⟩) := by
  refine ⟨rfl, rfl, ?_⟩
  intro h
  injection h with h1
  injection h1 with h2
  injection h2 with h3 h4
  exact absurd h3 (by decide)

/-- Claim C5 counterexample: after Where('a','==',1).Where('b','>',2) the
root is the AND composite AND[a,b]; a WhereOr then appends the OR
composite as a third child of that AND in place, rather than combining
the existing root and the OR composite under a new outer AND composite as
the claim states. -/
theorem whereOr_and_root_counterexample :
    (match (match Query.Where ⟨none⟩ "a" (.str "==") (.jnum (.intVal 1)) with
        | .ok q => Query.Where q "b" (.str ">") (.jnum (.intVal 2))
        | .error e => .error e) with
      | .ok q => Query.WhereOr q [sampleF1, sampleF2]
      | .error e => .error e)
      = .ok ⟨some (.compositeFilter "AND"
          [ffAeq1, ffBgt2, .compositeFilter "OR" [sampleF1, sampleF2]])⟩
    ∧ (Query.mk (some (.compositeFilter "AND"
          [ffAeq1, ffBgt2, .compositeFilter "OR" [sampleF1, sampleF2]]))
        ≠ ⟨some (.compositeFilter "AND" [.compositeFilter "AND" [ffAeq1, ffBgt2],
            .compositeFilter "OR" [sampleF1, sampleF2]])⟩) := by
  refine ⟨rfl, ?_⟩
  intro h
  injection h with h1
  injection h1 with h2
  injection h2 with h3 h4
  injection h4 with h5 h6
  rw [show ffAeq1 = .fieldFilter (fieldRef_ "a") "EQUAL" (.integerValue "1") from rfl] at h5
  exact FSFilter.noConfusion h5

/-- Claim C5 (amended): WhereOr with fewer than 2 filters throws; with no
prior root the OR composite of exactly the given filters becomes the root;
with a root that is not an AND composite, the root and the OR composite
are combined under an outer AND; with a root that is already an AND
composite, the OR composite is appended to it as an additional child. -/
theorem whereOr_spec :
    (∀ (q : Query) (fs : List FSFilter), fs.length < 2 →
      Query.WhereOr q fs = .error "OR filter requires at least 2 filters")
    ∧ (∀ fs : List FSFilter, 2 ≤ fs.length →
      Query.WhereOr ⟨none⟩ fs = .ok ⟨some (.compositeFilter "OR" fs)⟩)
    ∧ (∀ (w : FSFilter) (fs : List FSFilter), 2 ≤ fs.length → isAndComposite w = false →
      Query.WhereOr ⟨some w⟩ fs
        = .ok ⟨some (.compositeFilter "AND" [w, .compositeFilter "OR" fs])⟩)
    ∧ (∀ (cf fs : List FSFilter), 2 ≤ fs.length →
      Query.WhereOr ⟨some (.compositeFilter "AND" cf)⟩ fs
        = .ok ⟨some (.compositeFilter "AND" (cf ++ [.compositeFilter "OR" fs]))⟩) := by
  refine ⟨?_, ?_, ?_, ?_⟩
  · intro q fs h
    simp only [Query.WhereOr, if_pos h]
  · intro fs h
    have h2 : ¬ fs.length < 2 := by omega
    simp only [Query.WhereOr, if_neg h2]
  · intro w fs h hw
    have h2 : ¬ fs.length < 2 := by omega
    cases w with
    | fieldFilter a b c => simp only [Query.WhereOr, if_neg h2]
    | unaryFilter a b => simp only [Query.WhereOr, if_neg h2]
    | compositeFilter op l =>
      by_cases hop : op = "AND"
      · subst hop
        simp [isAndComposite] at hw
      · simp only [Query.WhereOr, if_neg h2, if_neg hop]
  · intro cf fs h
    have h2 : ¬ fs.length < 2 := by omega
    simp [Query.WhereOr, if_neg h2]

/-- Witness for C5 at concrete filters: too-few filters throw; no prior
root gives an OR root; a field-filter root is outer-AND combined; an
AND-composite root receives the OR composite as an appended child. -/
theorem whereOr_spec_witness :
    Query.WhereOr ⟨none⟩ [sampleF1] = .error "OR filter requires at least 2 filters"
    ∧ Query.WhereOr ⟨none⟩ [sampleF1, sampleF2]
        = .ok ⟨some (.compositeFilter "OR" [sampleF1, sampleF2])⟩
    ∧ Query.WhereOr ⟨some ffAeq1⟩ [sampleF1, sampleF2]
        = .ok ⟨some (.compositeFilter "AND"
            [ffAeq1, .compositeFilter "OR" [sampleF1, sampleF2]])⟩
    ∧ Query.WhereOr ⟨some (.compositeFilter "AND" [ffAeq1, ffBgt2])⟩ [sampleF1, sampleF2]
        = .ok ⟨some (.compositeFilter "AND"
            [ffAeq1, ffBgt2, .compositeFilter "OR" [sampleF1, sampleF2]])⟩ :=
  ⟨whereOr_spec.1 ⟨none⟩ [sampleF1] (by simp),
   whereOr_spec.2.1 [sampleF1, sampleF2] (by simp),
   whereOr_spec.2.2.1 ffAeq1 [sampleF1, sampleF2] (by simp) (by rfl),
   whereOr_spec.2.2.2 [ffAeq1, ffBgt2] [sampleF1, sampleF2] (by simp)⟩

/-! ## WriteBatch commit and transform (claims C8, C9, C10) -/

theorem firstFailing_lowest : ∀ (sts : List WStatus) (i : ℕ) (m : String),
    firstFailing sts = some (i, m) →
    (∃ s, sts.get? i = some s ∧ statusFailing s = true ∧ statusMsg s = m)
    ∧ ∀ j s2, j < i → sts.get? j = some s2 → statusFailing s2 = false := by
  intro sts
  induction sts with
  | nil => intro i m h; simp [firstFailing] at h
  | cons s rest ih =>
    intro i m h
    by_cases hf : statusFailing s
    · simp only [firstFailing, if_pos hf] at h
      injection h with h1
      injection h1 with hi hm
      subst hi
      subst hm
      exact ⟨⟨s, rfl, hf, rfl⟩, fun j s2 hj => by omega⟩
    · simp only [firstFailing, if_neg hf] at h
      cases hrec : firstFailing rest with
      | none => rw [hrec] at h; simp at h
      | some p =>
        rw [hrec] at h
        replace h : some ((p.1 + 1 : ℕ), p.2) = some (i, m) := h
        injection h with h1
        injection h1 with hi hm
        obtain ⟨⟨s3, hs3, hfail3, hmsg3⟩, hbefore⟩ := ih p.1 p.2 (by rw [hrec])
        constructor
        · refine ⟨s3, ?_, hfail3, by rw [hmsg3, hm]⟩
          rw [← hi]
          simpa using hs3
        · intro j s2 hj hget
          match j, hget with
          | 0, hget =>
            injection hget with hs2
            rw [← hs2]
            exact eq_false_of_ne_true hf
          | jj + 1, hget =>
            have hj2 : jj < p.1 := by omega
            exact hbefore jj s2 hj2 (by simpa using hget)

/-- Claim C8: commit on an empty batch throws before any RPC (for every
transport); after a commit whose RPC returned (successfully or with
reported per-operation failures) the pending-write count is 0; when some
status entry has a non-zero code, commit raises an error naming the first
failing operation index and its message; and `firstFailing` is indeed the
lowest failing index. -/
theorem writeBatch_commit_spec :
    (∀ post, WriteBatch.commit ⟨[]⟩ post = (⟨[]⟩, .error "Cannot commit empty batch"))
    ∧ (∀ (st : WriteBatch) (post : List Write → Except String BatchWriteResponse)
        (resp : BatchWriteResponse), st.writes ≠ [] → post st.writes = .ok resp →
        WriteBatch.size (WriteBatch.commit st post).1 = 0)
    ∧ (∀ (st : WriteBatch) (post : List Write → Except String BatchWriteResponse)
        (resp : BatchWriteResponse) (sts : List WStatus) (i : ℕ) (m : String),
        st.writes ≠ [] → post st.writes = .ok resp → resp.status = some sts →
        firstFailing sts = some (i, m) →
        WriteBatch.commit st post
          = (⟨[]⟩, .error ("Batch write operation " ++ toString i ++ " failed: " ++ m)))
    ∧ (∀ (sts : List WStatus) (i : ℕ) (m : String), firstFailing sts = some (i, m) →
        (∃ s, sts.get? i = some s ∧ statusFailing s = true ∧ statusMsg s = m)
        ∧ ∀ j s2, j < i → sts.get? j = some s2 → statusFailing s2 = false) := by
  refine ⟨?_, ?_, ?_, firstFailing_lowest⟩
  · intro post
    rfl
  · intro st post resp hne hok
    have h0 : ¬ st.writes.length = 0 := fun hh => hne (List.length_eq_zero.mp hh)
    simp only [WriteBatch.commit, if_neg h0, hok]
    cases hs : resp.status with
    | none => rfl
    | some sts =>
      cases hff : firstFailing sts with
      | none =>
        simp only [hff]
        rfl
      | some p =>
        simp only [hff]
        rfl
  · intro st post resp sts i m hne hok hst hff
    have h0 : ¬ st.writes.length = 0 := fun hh => hne (List.length_eq_zero.mp hh)
    simp only [WriteBatch.commit, if_neg h0, hok, hst, hff]

/-- Witness for C8: an empty batch throws; a two-status response with the
second operation failing clears the batch and raises the indexed error. -/
theorem writeBatch_commit_spec_witness :
    WriteBatch.commit ⟨[]⟩ (fun _ => .error "no rpc")
      = (⟨[]⟩, .error "Cannot commit empty batch")
    ∧ WriteBatch.size (WriteBatch.commit ⟨[wEx]⟩ (fun _ => .ok respFail)).1 = 0
    ∧ WriteBatch.commit ⟨[wEx]⟩ (fun _ => .ok respFail)
      = (⟨[]⟩, .error ("Batch write operation " ++ toString 1 ++ " failed: " ++ "boom"))
    ∧ ((∃ s, [stOkEx, stFailEx].get? 1 = some s ∧ statusFailing s = true ∧ statusMsg s = "boom")
        ∧ ∀ j s2, j < 1 → [stOkEx, stFailEx].get? j = some s2 → statusFailing s2 = false) :=
  ⟨writeBatch_commit_spec.1 (fun _ => .error "no rpc"),
   writeBatch_commit_spec.2.1 ⟨[wEx]⟩ (fun _ => .ok respFail) respFail (by simp) rfl,
   writeBatch_commit_spec.2.2.1 ⟨[wEx]⟩ (fun _ => .ok respFail) respFail
     [stOkEx, stFailEx] 1 "boom" (by simp) rfl rfl (by rfl),
   writeBatch_commit_spec.2.2.2 [stOkEx, stFailEx] 1 "boom" (by rfl)⟩

/-- Claim C9 counterexample: a transform whose per-field entries are all
of unrecognized shapes (an object with none of the three recognized
properties, and an unknown string) is silently skipped: no error is
raised and no write is staged, contradicting the claimed explicit
rejection. -/
theorem transform_unrecognized_skipped :
    WriteBatch.transform ⟨[]⟩ "Test Collection/Doc1"
      [("f", .objE none none none), ("g", .strE "bogus")] = .ok ⟨[]⟩ := rfl

/-- Claim C9 (amended): transform maps 'serverTimestamp', {increment},
truthy {arrayUnion} and truthy {arrayRemove} entries to the corresponding
field-transform entries; every other per-field shape is silently skipped
(no error is ever raised), and when every entry is skipped no write is
staged at all. -/
theorem transform_mapping_spec :
    (∀ field : String, transformEntry field (.strE "serverTimestamp")
      = some (.setToServerValue (escapeFieldKey field) "REQUEST_TIME"))
    ∧ (∀ (field : String) (v : JSValue) (au ar : Option JSValue),
      transformEntry field (.objE (some v) au ar)
        = some (.increment (escapeFieldKey field) (wrapValue v)))
    ∧ (∀ (field : String) (v : JSValue) (ar : Option JSValue), jsTruthy v = true →
      transformEntry field (.objE none (some v) ar)
        = some (.appendMissingElements (escapeFieldKey field) (wrapValuesArr v)))
    ∧ (∀ (field : String) (v : JSValue), jsTruthy v = true →
      transformEntry field (.objE none none (some v))
        = some (.removeAllFromArray (escapeFieldKey field) (wrapValuesArr v)))
    ∧ (∀ (field s : String), s ≠ "serverTimestamp" → transformEntry field (.strE s) = none)
    ∧ (∀ field : String, transformEntry field (.objE none none none) = none
        ∧ transformEntry field .otherE = none)
    ∧ (∀ (st : WriteBatch) (path : String) (entries : List (String × TEntry)),
      (∀ p ∈ entries, transformEntry p.1 p.2 = none) →
      WriteBatch.transform st path entries = .ok st) := by
  refine ⟨fun _ => rfl, fun _ _ _ _ => rfl, ?_, ?_, ?_, fun _ => ⟨rfl, rfl⟩, ?_⟩
  · intro field v ar hv
    simp [transformEntry, arrayUnionBranch, hv]
  · intro field v hv
    simp [transformEntry, arrayUnionBranch, arrayRemoveBranch, hv]
  · intro field s hs
    simp [transformEntry, hs]
  · intro st path entries h
    have hnil : entries.filterMap (fun p => transformEntry p.1 p.2) = [] := by
      rw [List.filterMap_eq_nil_iff]
      exact h
    simp [WriteBatch.transform, hnil]

/-- Witness for C9 at concrete entries mirroring the test data
(counter increment, tag arrayUnion, serverTimestamp, plus skipped
shapes). -/
theorem transform_mapping_spec_witness :
    transformEntry "timestamp" (.strE "serverTimestamp")
      = some (.setToServerValue (escapeFieldKey "timestamp") "REQUEST_TIME")
    ∧ transformEntry "counter" (.objE (some (.jnum (.intVal 3))) none none)
      = some (.increment (escapeFieldKey "counter") (wrapValue (.jnum (.intVal 3))))
    ∧ transformEntry "tags" (.objE none (some (.jarr (.cons (.jstr "new-tag") .nil))) none)
      = some (.appendMissingElements (escapeFieldKey "tags")
          (wrapValuesArr (.jarr (.cons (.jstr "new-tag") .nil))))
    ∧ transformEntry "f" (.strE "bogus") = none
    ∧ WriteBatch.transform ⟨[wEx]⟩ "p" [("f", .otherE)] = .ok ⟨[wEx]⟩ :=
  ⟨transform_mapping_spec.1 "timestamp",
   transform_mapping_spec.2.1 "counter" (.jnum (.intVal 3)) none none,
   transform_mapping_spec.2.2.1 "tags" (.jarr (.cons (.jstr "new-tag") .nil)) none (by rfl),
   transform_mapping_spec.2.2.2.2.1 "f" "bogus" (by decide),
   transform_mapping_spec.2.2.2.2.2.2 ⟨[wEx]⟩ "p" [("f", .otherE)]
     (by intro p hp; simp at hp; subst hp; rfl)⟩

/-- Claim C10 counterexample: an arrayUnion whose payload is the single
falsy value 0 is silently dropped (JavaScript truthiness guard), while the
one-element array [0] is accepted and wrapped — so a single non-array
value is not treated exactly as its one-element array form. -/
theorem arrayUnion_falsy_counterexample :
    transformEntry "f" (.objE none (some (.jnum (.intVal 0))) none) = none
    ∧ transformEntry "f" (.objE none (some (.jarr (.cons (.jnum (.intVal 0)) .nil))) none)
      = some (.appendMissingElements (escapeFieldKey "f")
          (.cons (.integerValue "0") .nil)) := by
  constructor
  · rfl
  · show transformEntry "f" (.objE none (some (.jarr (.cons (.jnum (.intVal 0)) .nil))) none)
      = some (.appendMissingElements (escapeFieldKey "f")
          (.cons (wrapValue (.jnum (.intVal 0))) .nil))
    rfl

theorem wrapValuesArr_nonarr (v : JSValue) (h : v.isArr = false) :
    wrapValuesArr v = .cons (wrapValue v) .nil := by
  cases v <;> first | rfl | simp [JSValue.isArr] at h

/-- Claim C10 (amended): an arrayUnion or arrayRemove transform whose
payload is a single truthy non-array value is accepted and wrapped into a
one-element values list, exactly as if a one-element array had been
passed; falsy single payloads are dropped by the truthiness guard. -/
theorem arrayUnion_single_value_spec :
    ∀ (field : String) (v : JSValue), jsTruthy v = true → v.isArr = false →
      (transformEntry field (.objE none (some v) none)
        = some (.appendMissingElements (escapeFieldKey field) (.cons (wrapValue v) .nil)))
      ∧ transformEntry field (.objE none (some v) none)
        = transformEntry field (.objE none (some (.jarr (.cons v .nil))) none)
      ∧ (transformEntry field (.objE none none (some v))
        = some (.removeAllFromArray (escapeFieldKey field) (.cons (wrapValue v) .nil)))
      ∧ transformEntry field (.objE none none (some v))
        = transformEntry field (.objE none none (some (.jarr (.cons v .nil)))) := by
  intro field v hv harr
  have hw : wrapValuesArr v = .cons (wrapValue v) .nil := wrapValuesArr_nonarr v harr
  have hwa : wrapValuesArr (.jarr (.cons v .nil)) = .cons (wrapValue v) .nil := rfl
  have hta : jsTruthy (.jarr (.cons v .nil)) = true := rfl
  refine ⟨?_, ?_, ?_, ?_⟩
  · simp [transformEntry, arrayUnionBranch, hv, hw]
  · simp [transformEntry, arrayUnionBranch, hv, hta, hw, hwa]
  · simp [transformEntry, arrayUnionBranch, arrayRemoveBranch, hv, hw]
  · simp [transformEntry, arrayUnionBranch, arrayRemoveBranch, hv, hta, hw, hwa]

/-- Witness for C10 at the truthy non-array payload "new-tag". -/
theorem arrayUnion_single_value_spec_witness :
    transformEntry "tags" (.objE none (some (.jstr "new-tag")) none)
      = some (.appendMissingElements (escapeFieldKey "tags")
          (.cons (wrapValue (.jstr "new-tag")) .nil))
    ∧ transformEntry "tags" (.objE none (some (.jstr "new-tag")) none)
      = transformEntry "tags" (.objE none (some (.jarr (.cons (.jstr "new-tag") .nil))) none) :=
  ⟨(arrayUnion_single_value_spec "tags" (.jstr "new-tag") (by decide) (by decide)).1,
   (arrayUnion_single_value_spec "tags" (.jstr "new-tag") (by decide) (by decide)).2.1⟩

/-! ## Transaction commit/rollback reset (claim C3) -/

/-- Claim C3 counterexample: on an Active transaction with a staged write
and an id, a commit (or rollback) whose RPC throws propagates the error
with the state NOT reset: the instance is still Active and keeps its
pending writes and transaction id, contrary to the claimed reset
"regardless of outcome". -/
theorem commit_throw_not_reset_counterexample :
    (Transaction.commit ⟨true, [wEx], some "abc"⟩
        (fun _ _ => .error "network error")).1.isActive = true
    ∧ (Transaction.commit ⟨true, [wEx], some "abc"⟩
        (fun _ _ => .error "network error")).1.writes = [wEx]
    ∧ (Transaction.commit ⟨true, [wEx], some "abc"⟩
        (fun _ _ => .error "network error")).1.transactionId = some "abc"
    ∧ (Transaction.rollback ⟨true, [wEx], some "abc"⟩
        (fun _ => .error "network error")).1.isActive = true :=
  ⟨rfl, rfl, rfl, rfl⟩

/-- Claim C3 (amended): on an Active transaction, commit and rollback
reset the state (Inactive, empty write list, no transaction id) when the
RPC returns a response; when the RPC throws, the error propagates and the
state is left unchanged (still Active, writes and id kept — the retry
driver relies on this to roll the transaction back).  After a reset the
same instance is reusable: a new begin succeeds. -/
theorem commit_rollback_reset :
    ∀ st : Transaction, st.isActive = true →
      (∀ (post : List Write → Option String → Except String CommitResponse)
          (resp : CommitResponse), post st.writes st.transactionId = .ok resp →
        Transaction.commit st post = (⟨false, [], none⟩, .ok (resp.writeResults.getD [])))
      ∧ (∀ (post : List Write → Option String → Except String CommitResponse)
          (e : String), post st.writes st.transactionId = .error e →
        Transaction.commit st post = (st, .error e))
      ∧ (∀ post : Option String → Except String Unit, post st.transactionId = .ok () →
        Transaction.rollback st post = (⟨false, [], none⟩, .ok ()))
      ∧ (∀ (post : Option String → Except String Unit) (e : String),
          post st.transactionId = .error e →
        Transaction.rollback st post = (st, .error e))
      ∧ (∀ r : BeginResponse, Transaction.begin ⟨false, [], none⟩ (.ok r)
          = (⟨true, [], r.transaction⟩, .ok ())) := by
  intro st h
  refine ⟨?_, ?_, ?_, ?_, fun r => rfl⟩
  · intro post resp hok
    simp [Transaction.commit, h, hok]
  · intro post e herr
    simp [Transaction.commit, h, herr]
  · intro post hok
    simp [Transaction.rollback, h, hok]
  · intro post e herr
    simp [Transaction.rollback, h, herr]

/-- Witness for C3 at a concrete Active transaction with one staged
write. -/
theorem commit_rollback_reset_witness :
    Transaction.commit ⟨true, [wEx], some "abc"⟩ (fun _ _ => .ok ⟨some [⟨some "t1"⟩]⟩)
      = (⟨false, [], none⟩, .ok [⟨some "t1"⟩])
    ∧ Transaction.rollback ⟨true, [wEx], some "abc"⟩ (fun _ => .ok ())
      = (⟨false, [], none⟩, .ok ())
    ∧ Transaction.begin ⟨false, [], none⟩ (.ok ⟨some "newid"⟩)
      = (⟨true, [], some "newid"⟩, .ok ()) :=
  ⟨(commit_rollback_reset ⟨true, [wEx], some "abc"⟩ rfl).1
      (fun _ _ => .ok ⟨some [⟨some "t1"⟩]⟩) ⟨some [⟨some "t1"⟩]⟩ rfl,
   (commit_rollback_reset ⟨true, [wEx], some "abc"⟩ rfl).2.2.1 (fun _ => .ok ()) rfl,
   (commit_rollback_reset ⟨true, [wEx], some "abc"⟩ rfl).2.2.2.2 ⟨some "newid"⟩⟩

/-! ## Retry driver behavior (claim C2) -/

theorem range_succ_shift (g : ℕ → ℕ) (k a : ℕ) :
    (List.range (k + 1)).map (fun i => g (a + i))
      = g a :: (List.range k).map (fun i => g (a + 1 + i)) := by
  rw [List.range_succ_eq_map, List.map_cons, List.map_map]
  have hc : ((fun i => g (a + i)) ∘ Nat.succ) = fun i => g (a + 1 + i) := by
    funext i
    show g (a + (i + 1)) = g (a + 1 + i)
    congr 1
    omega
  rw [hc]
  simp

theorem runAux_attempts_le {α : Type} (env : ℕ → Except String α) (maxR : ℕ) :
    ∀ (rem attempt : ℕ), (runTransactionAux env maxR attempt rem).attemptsMade ≤ rem := by
  intro rem
  induction rem with
  | zero => intro attempt; simp [runTransactionAux]
  | succ r ih =>
    intro attempt
    simp only [runTransactionAux]
    split
    · simp
    · split
      · have h2 := ih (attempt + 1)
        simp only []
        omega
      · simp

theorem runAux_reaches {α : Type} (env : ℕ → Except String α) (maxR : ℕ) :
    ∀ (k attempt rem : ℕ), attempt + rem = maxR + 1 → attempt + k ≤ maxR →
      (∀ i, i < k → ∃ m, env (attempt + i) = .error m ∧ isRetryableError m = true) →
      (∀ a : α, env (attempt + k) = .ok a →
        runTransactionAux env maxR attempt rem
          = ⟨.ok a, k + 1, (List.range k).map (fun i => backoffDelay (attempt + i))⟩)
      ∧ (∀ m : String, env (attempt + k) = .error m →
        (isRetryableError m = false ∨ attempt + k = maxR) →
        runTransactionAux env maxR attempt rem
          = ⟨.error m, k + 1, (List.range k).map (fun i => backoffDelay (attempt + i))⟩) := by
  intro k
  induction k with
  | zero =>
    intro attempt rem h1 h2 _
    match rem, h1 with
    | 0, h1 => exact absurd h1 (by omega)
    | r + 1, h1 =>
      constructor
      · intro a henv
        rw [Nat.add_zero] at henv
        simp only [runTransactionAux, henv]
        rfl
      · intro m henv hcond
        rw [Nat.add_zero] at henv
        rw [Nat.add_zero] at hcond
        have hneg : ¬ (isRetryableError m = true ∧ attempt < maxR) := by
          rcases hcond with hc | hc
          · intro hh
            rw [hc] at hh
            exact absurd hh.1 (by simp)
          · intro hh
            omega
        simp only [runTransactionAux, henv, if_neg hneg]
        rfl
  | succ k ih =>
    intro attempt rem h1 h2 hf
    have hlt : attempt < maxR := by omega
    match rem, h1 with
    | 0, h1 => exact absurd h1 (by omega)
    | r + 1, h1 =>
      obtain ⟨m0, henv0, hret0⟩ := hf 0 (by omega)
      rw [Nat.add_zero] at henv0
      have hcnd : isRetryableError m0 = true ∧ attempt < maxR := ⟨hret0, hlt⟩
      have hf2 : ∀ i, i < k → ∃ m, env (attempt + 1 + i) = .error m
          ∧ isRetryableError m = true := by
        intro i hi
        obtain ⟨m, hm, hr⟩ := hf (i + 1) (by omega)
        have heq : attempt + (i + 1) = attempt + 1 + i := by omega
        rw [heq] at hm
        exact ⟨m, hm, hr⟩
      have ihr := ih (attempt + 1) r (by omega) (by omega) hf2
      have heq : attempt + (k + 1) = attempt + 1 + k := by omega
      constructor
      · intro a henv
        rw [heq] at henv
        have hrec := ihr.1 a henv
        simp only [runTransactionAux, henv0, if_pos hcnd]
        rw [hrec]
        rw [range_succ_shift]
      · intro m henv hcond
        rw [heq] at henv
        rw [heq] at hcond
        have hrec := ihr.2 m henv hcond
        simp only [runTransactionAux, henv0, if_pos hcnd]
        rw [hrec]
        rw [range_succ_shift]

/-- Claim C2 counterexample: the message "abort" contains the claimed
keyword 'abort' (case-insensitively), yet the source keyword is 'aborted',
so the driver classifies it non-retryable and, with maxRetries = 5 and
retries remaining, makes exactly one attempt, performs no backoff sleep,
and propagates the error immediately instead of retrying. -/
theorem runTransaction_abort_counterexample :
    containsSubstr (lcStr "abort") "abort" = true
    ∧ Firestore.runTransaction (fun _ => (.error "abort" : Except String ℕ)) 5
      = ⟨.error "abort", 1, []⟩
    ∧ isRetryableError "abort" = false :=
  ⟨rfl, rfl, rfl⟩

/-- Claim C2 (amended): runTransaction makes at most maxRetries + 1
attempts, each on a freshly constructed Transaction; when attempts
0..k-1 fail with messages containing (case-insensitively) one of
'aborted', 'conflict', 'contention', 'deadline exceeded' and attempt k
succeeds (k within bounds), it sleeps min(1000*2^attempt, 10000) ms
before each retry and returns attempt k's result, short-circuiting the
remaining attempts; when attempt k fails non-retryably (or retryably with
no attempts remaining), the error propagates at once after exactly k + 1
attempts. -/
theorem runTransaction_retry_spec {α : Type} :
    (∀ (env : ℕ → Except String α) (maxR : ℕ),
      (Firestore.runTransaction env maxR).attemptsMade ≤ maxR + 1)
    ∧ (∀ (env : ℕ → Except String α) (maxR k : ℕ) (a : α), k ≤ maxR →
      (∀ i, i < k → ∃ m, env i = .error m ∧ isRetryableError m = true) →
      env k = .ok a →
      Firestore.runTransaction env maxR = ⟨.ok a, k + 1, (List.range k).map backoffDelay⟩)
    ∧ (∀ (env : ℕ → Except String α) (maxR k : ℕ) (m : String), k ≤ maxR →
      (∀ i, i < k → ∃ m2, env i = .error m2 ∧ isRetryableError m2 = true) →
      env k = .error m → (isRetryableError m = false ∨ k = maxR) →
      Firestore.runTransaction env maxR
        = ⟨.error m, k + 1, (List.range k).map backoffDelay⟩) := by
  have hdelay : ∀ k : ℕ, (List.range k).map (fun i => backoffDelay (0 + i))
      = (List.range k).map backoffDelay := by
    intro k
    have : (fun i => backoffDelay (0 + i)) = backoffDelay := by
      funext i
      rw [Nat.zero_add]
    rw [this]
  refine ⟨?_, ?_, ?_⟩
  · intro env maxR
    exact runAux_attempts_le env maxR (maxR + 1) 0
  · intro env maxR k a hk hf henv
    have h := (runAux_reaches env maxR k 0 (maxR + 1) (by omega) (by omega)
      (by intro i hi; obtain ⟨m, hm, hr⟩ := hf i hi; exact ⟨m, by rw [Nat.zero_add]; exact hm, hr⟩)).1
      a (by rw [Nat.zero_add]; exact henv)
    rw [Firestore.runTransaction, h, hdelay]
  · intro env maxR k m hk hf henv hcond
    have h := (runAux_reaches env maxR k 0 (maxR + 1) (by omega) (by omega)
      (by intro i hi; obtain ⟨m2, hm, hr⟩ := hf i hi; exact ⟨m2, by rw [Nat.zero_add]; exact hm, hr⟩)).2
      m (by rw [Nat.zero_add]; exact henv)
      (by rcases hcond with hc | hc
          · exact Or.inl hc
          · exact Or.inr (by omega))
    rw [Firestore.runTransaction, h, hdelay]

/-- Witness for C2: a function failing with an "ABORTED" message on
attempts 0 and 1 and succeeding on attempt 2 causes exactly two retries
with backoff sleeps 1000 ms then 2000 ms and returns the third attempt's
result; a function failing with the unrelated message "not found"
propagates after a single attempt with no sleeps. -/
theorem runTransaction_retry_spec_witness :
    Firestore.runTransaction retryEnvEx 5 = ⟨.ok 7, 3, [1000, 2000]⟩
    ∧ Firestore.runTransaction (fun _ => (.error "not found" : Except String ℕ)) 5
      = ⟨.error "not found", 1, []⟩ :=
  ⟨(runTransaction_retry_spec (α := ℕ)).2.1 retryEnvEx 5 2 7 (by omega)
      (fun i hi => ⟨"ABORTED: too much contention", by interval_cases i <;> rfl, by rfl⟩)
      rfl,
   (runTransaction_retry_spec (α := ℕ)).2.2 (fun _ => .error "not found") 5 0 "not found"
      (by omega) (fun i hi => absurd hi (by omega)) rfl (Or.inl (by rfl))⟩
